import Mathlib

/-!
Verification development for the speaking-practice session orchestration
engine.  The repository's backend service layer (session manager, turn
pipeline, cleanup task, audio artifact naming) is specified in spec-style
documents; the frontend (React) API client and practice view are present as
TypeScript sources.  Pure functional embeddings of both are given below,
followed by theorems settling the stated properties.
-/

namespace SpeakingPractice

/-- A turn's speaker: the user or the system (AI tutor). -/
inductive Role where
  | user : Role
  | system : Role
deriving DecidableEq

/-- Session lifecycle states.  PURGED is represented by removal from the
store, matching the spec's "terminal, record removed". -/
inductive SessionState where
  | ACTIVE : SessionState
  | ENDING : SessionState
  | ENDED : SessionState
deriving DecidableEq

/-- Closing intent decided during a turn: no close, stop-phrase match, or
turn-pair cap reached. -/
inductive ClosingIntent where
  | NONE : ClosingIntent
  | STOP_WORD : ClosingIntent
  | MAX_TURNS : ClosingIntent
deriving DecidableEq

/-- Engine error taxonomy. -/
inductive EngineError where
  | SessionNotFound : EngineError
  | SessionNotActive : EngineError
  | ASRFailure : EngineError
  | LLMFailure : EngineError
  | TTSFailure : EngineError
  | AudioStorageFailure : EngineError
deriving DecidableEq

/-- One conversational turn: role, text, optional audio artifact reference,
and the sequence index within the session. -/
structure Turn where
  role : Role
  text : String
  audio_ref : Option String
  index : Nat
deriving DecidableEq

/-- Session creation settings, mirroring the frontend SessionCreate type. -/
structure SessionSettings where
  primary_language : String
  target_language : String
  proficiency_level : String
  stop_word : String
deriving DecidableEq

/-- Modelled from the spec: the authoritative in-memory Session record of
the backend session manager (which is not among the provided sources). -/
structure Session where
  id : String
  settings : SessionSettings
  created_at : Nat
  last_activity : Nat
  state : SessionState
  turns : List Turn
  turn_pair_count : Nat
deriving DecidableEq

/-- The per-turn result returned by the turn pipeline. -/
structure TurnResult where
  user_text : String
  reply_text : String
  reply_audio_ref : Option String
  is_session_ending : Bool
deriving DecidableEq

/-- One structured feedback item of the final analysis. -/
structure Feedback where
  original_sentence : String
  corrected_sentence : String
  explanation : String
deriving DecidableEq

/-- Immutable snapshot handed to the history collaborator at ENDED. -/
structure SessionRecord where
  id : String
  settings : SessionSettings
  created_at : Nat
  turns : List Turn
  summary : String
  feedback : List Feedback
deriving DecidableEq

/-- The configured maximum number of turn pairs per session. -/
def maxTurnPairs : Nat := 15

/-- The idle timeout (seconds) after which a session is purged. -/
def sessionTimeout : Nat := 3600

/- ## Text normalization and stop-phrase matching -/

/-- Modelled from the spec: characters stripped from the ends of a
recognized utterance (whitespace and common sentence punctuation). -/
def isStripChar (c : Char) : Bool :=
  c = ' ' || c = '\t' || c = '\n' || c = '\r' ||
  c = '.' || c = ',' || c = '!' || c = '?' || c = ';' || c = ':'

/-- Modelled from the spec: normalization of recognized text — case-fold,
then strip leading and trailing punctuation and whitespace. -/
def normalizeChars (s : String) : List Char :=
  (((s.data.map Char.toLower).dropWhile isStripChar).reverse.dropWhile
    isStripChar).reverse

/-- The normalized text as a string. -/
def normalizeText (s : String) : String :=
  String.mk (normalizeChars s)

/-- Boolean test that the first list is an initial segment of the second. -/
def listStartsWith : List Char → List Char → Bool
  | [], _ => true
  | _ :: _, [] => false
  | a :: as, b :: bs => a = b && listStartsWith as bs

/-- Boolean substring (contiguous sublist) containment test. -/
def listContainsSub (pat : List Char) : List Char → Bool
  | [] => pat.isEmpty
  | c :: rest => listStartsWith pat (c :: rest) || listContainsSub pat rest

/-- Modelled from the spec: the step-3 stop-phrase check — the normalized
utterance is tested for containment of the identically normalized stop
phrase, as a substring test. -/
def stopPhraseMatch (utterance stopPhrase : String) : Bool :=
  listContainsSub (normalizeChars stopPhrase) (normalizeChars utterance)

/-- Modelled from the spec: strip residual markdown formatting characters
from an LLM reply so it is surfaced as plain spoken-style text. -/
def stripMarkdown (s : String) : String :=
  String.mk (s.data.filter (fun c => !(c = '*' || c = '#')))

/- ## Decimal rendering and artifact naming -/

/-- The decimal digit character for a single digit value. -/
def digitChar10 (d : Nat) : Char :=
  if d = 0 then '0' else if d = 1 then '1' else if d = 2 then '2'
  else if d = 3 then '3' else if d = 4 then '4' else if d = 5 then '5'
  else if d = 6 then '6' else if d = 7 then '7' else if d = 8 then '8'
  else '9'

/-- Numeric value of a digit character. -/
def digitVal (c : Char) : Nat := c.toNat - 48

/-- Fuel-driven big-endian decimal rendering accumulator. -/
def natCharsGo : Nat → Nat → List Char → List Char
  | 0, _, acc => acc
  | fuel + 1, n, acc =>
    if n < 10 then digitChar10 n :: acc
    else natCharsGo fuel (n / 10) (digitChar10 (n % 10) :: acc)

/-- Big-endian decimal digit characters of a natural number. -/
def natChars (n : Nat) : List Char := natCharsGo (n + 1) n []

/-- Modelled from the spec: deterministic artifact name, the session id
followed by an underscore and the decimal turn index. -/
def artifactName (session_id : String) (turn_index : Nat) : String :=
  session_id ++ String.mk ('_' :: natChars turn_index)

/- ## Audio artifact manager -/

/-- Modelled from the spec: the audio artifact store, a finite map from
artifact name to the stored audio bytes. -/
structure ArtifactStore where
  entries : List (String × List Nat)
deriving DecidableEq

/-- Modelled from the spec: store audio under the deterministic name for
(session_id, turn_index); re-storing the same key overwrites rather than
accumulates.  Returns the updated store and the artifact reference. -/
def storeArtifact (st : ArtifactStore) (session_id : String)
    (turn_index : Nat) (bytes : List Nat) : ArtifactStore × String :=
  let name := artifactName session_id turn_index
  (⟨(name, bytes) :: st.entries.filter (fun p => !(p.1 = name))⟩, name)

/-- Number of entries stored under a given artifact name. -/
def keyCount (st : ArtifactStore) (name : String) : Nat :=
  (st.entries.filter (fun p => p.1 = name)).length

/-- Lookup of the bytes stored under a given artifact name. -/
def keyLookup (st : ArtifactStore) (name : String) : Option (List Nat) :=
  (st.entries.find? (fun p => p.1 = name)).map Prod.snd

/- ## The turn pipeline -/

/-- Collaborator outcomes consumed by one turn: the ASR transcription, the
LLM main reply, the TTS synthesis, and the wall-clock instant. -/
structure TurnInput where
  asr : Except Unit String
  llm : Except Unit String
  tts : Except Unit (List Nat)
  now : Nat

/-- Modelled from the spec: closing-intent determination — STOP_WORD when
the normalized utterance contains the stop phrase, else MAX_TURNS when the
turn-pair count is about to reach the configured maximum of 15, else
NONE. -/
def closingIntent (sess : Session) (userText : String) : ClosingIntent :=
  if stopPhraseMatch userText sess.settings.stop_word then
    ClosingIntent.STOP_WORD
  else if maxTurnPairs ≤ sess.turn_pair_count + 1 then
    ClosingIntent.MAX_TURNS
  else ClosingIntent.NONE

/-- Whether a closing intent routes to the ENDING transition. -/
def ClosingIntent.isClosing : ClosingIntent → Bool
  | ClosingIntent.NONE => false
  | ClosingIntent.STOP_WORD => true
  | ClosingIntent.MAX_TURNS => true

/-- Modelled from the spec: the turn pipeline processTurn.  Validates the
session is ACTIVE; surfaces ASRFailure without consuming capacity; on LLM
failure aborts the turn with no Turn appended, leaving the session ACTIVE
for an idempotent-safe retry; on success appends the user Turn and the
system Turn, increments the turn-pair counter, updates last-activity, and
applies the ACTIVE to ENDING transition when the closing intent is
STOP_WORD or MAX_TURNS.  A TTS failure still returns the text reply with
the audio reported unavailable. -/
def processTurn (sess : Session) (inp : TurnInput) :
    Session × Except EngineError TurnResult :=
  match sess.state with
  | SessionState.ENDING => (sess, Except.error EngineError.SessionNotActive)
  | SessionState.ENDED => (sess, Except.error EngineError.SessionNotActive)
  | SessionState.ACTIVE =>
    match inp.asr with
    | Except.error _ => (sess, Except.error EngineError.ASRFailure)
    | Except.ok userText =>
      let intent := closingIntent sess userText
      match inp.llm with
      | Except.error _ => (sess, Except.error EngineError.LLMFailure)
      | Except.ok replyRaw =>
        let replyText := stripMarkdown replyRaw
        let userTurn : Turn :=
          ⟨Role.user, userText, none, sess.turns.length⟩
        let audioRef : Option String :=
          match inp.tts with
          | Except.error _ => none
          | Except.ok _ => some (artifactName sess.id (sess.turns.length + 1))
        let sysTurn : Turn :=
          ⟨Role.system, replyText, audioRef, sess.turns.length + 1⟩
        ({ sess with
            turns := sess.turns ++ [userTurn, sysTurn]
            turn_pair_count := sess.turn_pair_count + 1
            last_activity := inp.now
            state :=
              if intent.isClosing then SessionState.ENDING
              else SessionState.ACTIVE },
          Except.ok ⟨userText, replyText, audioRef, intent.isClosing⟩)

/-- Modelled from the spec: the explicit start operation creating a fresh
ACTIVE session with an empty turn sequence and zero turn pairs. -/
def startSession (id : String) (settings : SessionSettings) (now : Nat) :
    Session :=
  ⟨id, settings, now, now, SessionState.ACTIVE, [], 0⟩

/-- Run a sequence of turn requests; `some` of the final session when every
request completed successfully, `none` otherwise. -/
def runTurns : Session → List TurnInput → Option Session
  | sess, [] => some sess
  | sess, inp :: rest =>
    match processTurn sess inp with
    | (sess1, Except.ok _) => runTurns sess1 rest
    | (_, Except.error _) => none

/-- Modelled from the spec: the explicit stop operation.  It short-circuits
the ASR and user-turn-append steps of the pipeline, generates a wrap-up
reply with the LLM/TTS collaborators, appends only the system Turn, updates
last-activity, and transitions ACTIVE to ENDING. -/
def stopOp (sess : Session) (llm : Except Unit String)
    (tts : Except Unit (List Nat)) (now : Nat) :
    Session × Except EngineError TurnResult :=
  match sess.state with
  | SessionState.ENDING => (sess, Except.error EngineError.SessionNotActive)
  | SessionState.ENDED => (sess, Except.error EngineError.SessionNotActive)
  | SessionState.ACTIVE =>
    match llm with
    | Except.error _ => (sess, Except.error EngineError.LLMFailure)
    | Except.ok wrapRaw =>
      let wrapText := stripMarkdown wrapRaw
      let audioRef : Option String :=
        match tts with
        | Except.error _ => none
        | Except.ok _ => some (artifactName sess.id sess.turns.length)
      let sysTurn : Turn :=
        ⟨Role.system, wrapText, audioRef, sess.turns.length⟩
      ({ sess with
          turns := sess.turns ++ [sysTurn]
          last_activity := now
          state := SessionState.ENDING },
        Except.ok ⟨"", wrapText, audioRef, true⟩)

/-- An LLM collaborator invocation made during finalize. -/
inductive LLMCall where
  | summarize : List Turn → LLMCall
  | analyze : List Turn → LLMCall
deriving DecidableEq

/-- Modelled from the spec: the finalize operation.  Valid only from
ENDING; otherwise fails with SessionNotActive and changes nothing.  On
success it makes exactly two further LLM calls (summary, then structured
feedback, both over the full turn history), transitions to ENDED, and
constructs the SessionRecord.  The third component logs the LLM calls
made. -/
def finalizeOp (sess : Session) (summaryRes : Except Unit String)
    (analysisRes : Except Unit (List Feedback)) :
    Session × Except EngineError SessionRecord × List LLMCall :=
  match sess.state with
  | SessionState.ACTIVE =>
    (sess, Except.error EngineError.SessionNotActive, [])
  | SessionState.ENDED =>
    (sess, Except.error EngineError.SessionNotActive, [])
  | SessionState.ENDING =>
    match summaryRes with
    | Except.error _ =>
      (sess, Except.error EngineError.LLMFailure, [LLMCall.summarize sess.turns])
    | Except.ok summaryText =>
      match analysisRes with
      | Except.error _ =>
        (sess, Except.error EngineError.LLMFailure,
          [LLMCall.summarize sess.turns, LLMCall.analyze sess.turns])
      | Except.ok feedbackList =>
        ({ sess with state := SessionState.ENDED },
          Except.ok
            ⟨sess.id, sess.settings, sess.created_at, sess.turns,
              summaryText, feedbackList⟩,
          [LLMCall.summarize sess.turns, LLMCall.analyze sess.turns])

/- ## Cleanup scheduler -/

/-- An audio artifact as tracked by the cleanup path. -/
structure AudioArtifact where
  session_id : String
  turn_index : Nat
  created_at : Nat
deriving DecidableEq

/-- The engine's shared state touched by the cleanup sweep: the session
store and the audio artifacts. -/
structure EngineState where
  sessions : List (String × Session)
  artifacts : List AudioArtifact
deriving DecidableEq

/-- Whether a session's idle duration exceeds the timeout at instant
`now` (measured from last-activity, independent of state). -/
def isExpiredAt (now : Nat) (s : Session) : Bool :=
  sessionTimeout < now - s.last_activity

/-- The point-in-time snapshot of expired session ids taken at the start of
a cleanup run. -/
def expiredIds (now : Nat) (st : EngineState) : List String :=
  (st.sessions.filter (fun p => isExpiredAt now p.2)).map Prod.fst

/-- Modelled from the spec: one cleanup sweep — snapshot the expired ids,
then delete every audio artifact of those sessions and remove the sessions
from the store. -/
def cleanupSweep (now : Nat) (st : EngineState) : EngineState :=
  let ids := expiredIds now st
  ⟨st.sessions.filter (fun p => !(ids.contains p.1)),
    st.artifacts.filter (fun a => !(ids.contains a.session_id))⟩

/- ## Frontend: shared API client error interceptor (src/frontend/src/api/client.ts) -/

/-- The shape of an axios error as read by the response interceptor:
the optional server response message (error.response?.data?.message) and
the optional own message (error.message).  `none` models an absent field. -/
structure AxiosError where
  responseMessage : Option String
  errorMessage : Option String
deriving DecidableEq

/-- JavaScript `a || b` on an optional string: `a` when present and truthy
(non-empty), else `b`. -/
def jsOrStr (a : Option String) (b : String) : String :=
  match a with
  | none => b
  | some s => if s = "" then b else s

/-- The message computed by the interceptor:
error.response?.data?.message || error.message ||
'An unexpected error occurred'. -/
def interceptorMessage (e : AxiosError) : String :=
  jsOrStr e.responseMessage
    (jsOrStr e.errorMessage ("An unexpected error occurred"))

/-- The rejected-response interceptor: when a handler is registered it is
called with the computed message, and the promise is rejected with the
original error.  The first component is the list of handler invocations. -/
def interceptorOnRejected (handlerRegistered : Bool) (e : AxiosError) :
    List String × AxiosError :=
  (if handlerRegistered then [interceptorMessage e] else [], e)

/-- The message selection as literally worded by the claim: the server
response's message field if present, else the error's own message if
present, else the constant. -/
def claimedMessage (e : AxiosError) : String :=
  match e.responseMessage with
  | some s => s
  | none =>
    match e.errorMessage with
    | some s => s
    | none => "An unexpected error occurred"

/- ## Frontend: PracticeView handleRecordingComplete (optimistic turn) -/

/-- The frontend Turn shape (role, text, optional audio URL). -/
structure FTurn where
  role : Role
  text : String
  audio_url : Option String
deriving DecidableEq

/-- The backend turn response as consumed by PracticeView. -/
structure FTurnResponse where
  user_text : String
  ai_text : String
  ai_audio_url : Option String
  is_session_ending : Bool
  is_session_ended : Bool
deriving DecidableEq

/-- The optimistic user turn appended before the turn request is sent. -/
def optimisticTurn : FTurn :=
  ⟨Role.user, "Processing audio...", none⟩

/-- The displayed turn list after the optimistic append, before the
request resolves. -/
def afterOptimistic (turns : List FTurn) : List FTurn :=
  turns ++ [optimisticTurn]

/-- The displayed turn list after the sendTurn request resolves: on success
the optimistic entry is replaced by the recognized user turn followed by
the system reply; on failure the optimistic entry is removed. -/
def afterTurnResponse (turns : List FTurn)
    (resp : Except Unit FTurnResponse) : List FTurn :=
  match resp with
  | Except.ok r =>
    (afterOptimistic turns).dropLast ++
      [⟨Role.user, r.user_text, none⟩,
        ⟨Role.system, r.ai_text, r.ai_audio_url⟩]
  | Except.error _ => (afterOptimistic turns).dropLast

/- ## Auxiliary definitions for the statements and witnesses -/

/-- The strictly alternating role pattern of n user/system turn pairs. -/
def pairPattern : Nat → List Role
  | 0 => []
  | n + 1 => Role.user :: Role.system :: pairPattern n

/-- The is_session_ending flag of a pipeline outcome, when successful. -/
def resultEnding : Except EngineError TurnResult → Option Bool
  | Except.ok tr => some tr.is_session_ending
  | Except.error _ => none

/-- The reply text of a pipeline outcome, when successful. -/
def resultReply : Except EngineError TurnResult → Option String
  | Except.ok tr => some tr.reply_text
  | Except.error _ => none

/-- Decimal value of a big-endian digit character list. -/
def chVal : List Char → Nat
  | [] => 0
  | c :: cs => digitVal c * 10 ^ cs.length + chVal cs

/-- Sample settings used by the concrete witnesses. -/
def sampleSettings : SessionSettings :=
  ⟨("English"), ("Spanish"), ("A1"), ("stop session")⟩

/-- A freshly started sample session. -/
def sampleStart : Session := startSession ("s1") sampleSettings 0

/-- A sample session one pair short of the configured maximum. -/
def sampleNearMax : Session := { sampleStart with turn_pair_count := 14 }

/-- A sample session awaiting finalize. -/
def sampleEnding : Session := { sampleStart with state := SessionState.ENDING }

/-- A sample fully successful turn input that does not say the stop
phrase. -/
def okInput : TurnInput :=
  ⟨Except.ok ("Hello there"), Except.ok ("Hola"), Except.ok [1, 2], 5⟩

/-- The session after running two successful sample turns. -/
def c1Result : Session :=
  (runTurns sampleStart [okInput, okInput]).getD sampleStart

/-- A sample session stale beyond the idle timeout. -/
def staleSession : Session :=
  { sampleStart with id := ("old"), last_activity := 0 }

/-- A sample session mutated within the timeout window. -/
def freshSession : Session :=
  { sampleStart with id := ("fresh"), created_at := 0, last_activity := 4000 }

/-- A sample engine state holding one stale and one fresh session, each
with one audio artifact. -/
def sampleEngineState : EngineState :=
  ⟨[(("old"), staleSession), (("fresh"), freshSession)],
    [⟨("old"), 1, 0⟩, ⟨("fresh"), 1, 4000⟩]⟩

/- ## Theorems -/

theorem pairPattern_length (n : Nat) : (pairPattern n).length = 2 * n := by
  induction n with
  | zero => rfl
  | succ k ih => simp [pairPattern, ih]; omega

theorem processTurn_ok (sess : Session) (inp : TurnInput) (s' : Session)
    (tr : TurnResult) (h : processTurn sess inp = (s', Except.ok tr)) :
    s'.turn_pair_count = sess.turn_pair_count + 1 ∧
    s'.turns.map Turn.role =
      sess.turns.map Turn.role ++ [Role.user, Role.system] := by
  unfold processTurn at h
  split at h
  · exact absurd (congrArg Prod.snd h) (by simp)
  · exact absurd (congrArg Prod.snd h) (by simp)
  · split at h
    · exact absurd (congrArg Prod.snd h) (by simp)
    · split at h
      · exact absurd (congrArg Prod.snd h) (by simp)
      · have hs : s' = _ := (congrArg Prod.fst h).symm
        subst hs
        simp

theorem runTurns_spec : ∀ (inputs : List TurnInput) (sess s' : Session),
    runTurns sess inputs = some s' →
    s'.turn_pair_count = sess.turn_pair_count + inputs.length ∧
    s'.turns.map Turn.role =
      sess.turns.map Turn.role ++ pairPattern inputs.length := by
  intro inputs
  induction inputs with
  | nil =>
    intro sess s' h
    simp [runTurns] at h
    subst h
    simp [pairPattern]
  | cons i rest ih =>
    intro sess s' h
    unfold runTurns at h
    rcases hp : processTurn sess i with ⟨s1, res⟩
    rw [hp] at h
    cases res with
    | error e => simp at h
    | ok tr =>
      simp at h
      obtain ⟨hc, hr⟩ := ih s1 s' h
      obtain ⟨hc1, hr1⟩ := processTurn_ok sess i s1 tr hp
      refine ⟨by simp [hc, hc1]; omega, ?_⟩
      rw [hr, hr1, List.append_assoc]
      rfl

/-- C1: for every session and every sequence of N turn requests that each
complete successfully, the resulting turn-pair count equals N and the turn
sequence holds exactly 2N entries strictly alternating user, system, ... in
insertion order. -/
theorem claim_C1_turn_pair_invariant (id : String)
    (settings : SessionSettings) (now : Nat) (inputs : List TurnInput)
    (s' : Session) (h : runTurns (startSession id settings now) inputs = some s') :
    s'.turn_pair_count = inputs.length ∧
    s'.turns.map Turn.role = pairPattern inputs.length ∧
    s'.turns.length = 2 * inputs.length := by
  obtain ⟨hc, hr⟩ := runTurns_spec inputs (startSession id settings now) s' h
  refine ⟨by simpa [startSession] using hc, by simpa [startSession] using hr, ?_⟩
  have := congrArg List.length hr
  simpa [startSession, pairPattern_length] using this

/-- Witness for C1 at a concrete two-turn run. -/
theorem claim_C1_turn_pair_invariant_witness :
    c1Result.turn_pair_count = 2 ∧
    c1Result.turns.map Turn.role = pairPattern 2 ∧
    c1Result.turns.length = 2 * 2 :=
  claim_C1_turn_pair_invariant ("s1") sampleSettings 0 [okInput, okInput]
    c1Result (by rfl)

/-- C2: on an ACTIVE session whose turn-pair count is about to reach the
configured maximum of 15, a turn whose ASR and LLM calls succeed yields a
result with is_session_ending = true (regardless of the stop phrase); and
whenever the closing intent is NONE the result carries
is_session_ending = false. -/
theorem claim_C2_max_turns_ending (sess : Session) (u reply : String)
    (tts : Except Unit (List Nat)) (now : Nat)
    (hA : sess.state = SessionState.ACTIVE) :
    (maxTurnPairs ≤ sess.turn_pair_count + 1 →
      resultEnding
        (processTurn sess ⟨Except.ok u, Except.ok reply, tts, now⟩).2 =
        some true) ∧
    (closingIntent sess u = ClosingIntent.NONE →
      resultEnding
        (processTurn sess ⟨Except.ok u, Except.ok reply, tts, now⟩).2 =
        some false) := by
  rcases sess with ⟨id, settings, ca, la, state, turns, cnt⟩
  simp only at hA
  subst hA
  constructor
  · intro hmax
    simp only [processTurn, resultEnding]
    have : (closingIntent ⟨id, settings, ca, la, SessionState.ACTIVE, turns, cnt⟩
        u).isClosing = true := by
      unfold closingIntent
      by_cases hstop :
          stopPhraseMatch u settings.stop_word = true
      · simp [hstop, ClosingIntent.isClosing]
      · simp only at hmax
        simp [hstop, hmax, ClosingIntent.isClosing]
    simp [this]
  · intro hnone
    simp only [processTurn, resultEnding]
    simp [hnone, ClosingIntent.isClosing]

/-- Witness for C2: a session at 14 pairs ends the session on the next
successful turn although the utterance lacks the stop phrase, and a fresh
session with closing intent NONE does not. -/
theorem claim_C2_max_turns_ending_witness :
    resultEnding (processTurn sampleNearMax okInput).2 = some true ∧
    resultEnding (processTurn sampleStart okInput).2 = some false :=
  ⟨(claim_C2_max_turns_ending sampleNearMax ("Hello there") ("Hola")
      (Except.ok [1, 2]) 5 rfl).1 (by decide),
    (claim_C2_max_turns_ending sampleStart ("Hello there") ("Hola")
      (Except.ok [1, 2]) 5 rfl).2 (by decide)⟩

theorem listStartsWith_iff (p : List Char) :
    ∀ l : List Char, listStartsWith p l = true ↔ p <+: l := by
  induction p with
  | nil => intro l; simp [listStartsWith]
  | cons a as ih =>
    intro l
    cases l with
    | nil => simp [listStartsWith]
    | cons b bs =>
      simp [listStartsWith, List.cons_prefix_cons, ih bs]

theorem listContainsSub_iff (p : List Char) :
    ∀ l : List Char, listContainsSub p l = true ↔ p <:+: l := by
  intro l
  induction l with
  | nil => simp [listContainsSub, List.isEmpty_iff]
  | cons c rest ih =>
    simp [listContainsSub, listStartsWith_iff, ih, List.infix_cons_iff]

/-- C3: the step-3 stop-phrase check matches exactly when the normalized
utterance (case-folded, ends stripped of punctuation and whitespace)
contains the identically normalized stop phrase as a substring; in
particular the phrase matches inside a longer utterance without
whole-utterance equality. -/
theorem claim_C3_stop_phrase_containment :
    (∀ utterance stopPhrase : String,
      stopPhraseMatch utterance stopPhrase = true ↔
        normalizeChars stopPhrase <:+: normalizeChars utterance) ∧
    stopPhraseMatch ("Okay, STOP SESSION now please.") ("stop session") =
      true ∧
    normalizeText ("Okay, STOP SESSION now please.") ≠
      normalizeText ("stop session") :=
  ⟨fun utterance stopPhrase =>
      listContainsSub_iff (normalizeChars stopPhrase)
        (normalizeChars utterance),
    by decide, by decide⟩

/-- Witness for C3: the containment characterization applied at a concrete
utterance and phrase. -/
theorem claim_C3_stop_phrase_containment_witness :
    stopPhraseMatch ("well STOP now") ("stop") = true :=
  (claim_C3_stop_phrase_containment.1 ("well STOP now") ("stop")).mpr
    (by decide)

/-- C4: when the LLM main-reply call fails on an ACTIVE session, the turn
returns an LLMFailure and the session is returned unchanged — no user Turn
or system Turn appended, turn-pair count intact, state still ACTIVE — so a
retry of the same turn cannot double-append history. -/
theorem claim_C4_llm_failure_no_append (sess : Session) (u : String)
    (tts : Except Unit (List Nat)) (now : Nat)
    (hA : sess.state = SessionState.ACTIVE) :
    processTurn sess ⟨Except.ok u, Except.error (), tts, now⟩ =
      (sess, Except.error EngineError.LLMFailure) := by
  rcases sess with ⟨id, settings, ca, la, state, turns, cnt⟩
  simp only at hA
  subst hA
  simp [processTurn]

/-- Witness for C4 at a concrete session. -/
theorem claim_C4_llm_failure_no_append_witness :
    processTurn sampleStart
        ⟨Except.ok ("hi"), Except.error (), Except.ok [], 3⟩ =
      (sampleStart, Except.error EngineError.LLMFailure) :=
  claim_C4_llm_failure_no_append sampleStart ("hi") (Except.ok []) 3 rfl

/-- C5: the explicit stop operation on an ACTIVE session transitions it to
ENDING and returns a wrap-up result marked session-ending, appending only a
system Turn — no user utterance is consumed, no user Turn appended, and the
turn-pair count is unchanged. -/
theorem claim_C5_explicit_stop (sess : Session) (wrap : String)
    (tts : Except Unit (List Nat)) (now : Nat)
    (hA : sess.state = SessionState.ACTIVE) :
    (stopOp sess (Except.ok wrap) tts now).1.state = SessionState.ENDING ∧
    resultEnding (stopOp sess (Except.ok wrap) tts now).2 = some true ∧
    resultReply (stopOp sess (Except.ok wrap) tts now).2 =
      some (stripMarkdown wrap) ∧
    (stopOp sess (Except.ok wrap) tts now).1.turns.map Turn.role =
      sess.turns.map Turn.role ++ [Role.system] ∧
    (stopOp sess (Except.ok wrap) tts now).1.turn_pair_count =
      sess.turn_pair_count := by
  rcases sess with ⟨id, settings, ca, la, state, turns, cnt⟩
  simp only at hA
  subst hA
  simp [stopOp, resultEnding, resultReply]

/-- Witness for C5 at a concrete session. -/
theorem claim_C5_explicit_stop_witness :
    (stopOp sampleStart (Except.ok ("Adios")) (Except.ok [7]) 9).1.state =
      SessionState.ENDING ∧
    resultEnding (stopOp sampleStart (Except.ok ("Adios"))
        (Except.ok [7]) 9).2 = some true ∧
    resultReply (stopOp sampleStart (Except.ok ("Adios"))
        (Except.ok [7]) 9).2 = some (stripMarkdown ("Adios")) ∧
    (stopOp sampleStart (Except.ok ("Adios"))
        (Except.ok [7]) 9).1.turns.map Turn.role =
      sampleStart.turns.map Turn.role ++ [Role.system] ∧
    (stopOp sampleStart (Except.ok ("Adios"))
        (Except.ok [7]) 9).1.turn_pair_count =
      sampleStart.turn_pair_count :=
  claim_C5_explicit_stop sampleStart ("Adios") (Except.ok [7]) 9 rfl

/-- C6: finalize succeeds only from ENDING — from ACTIVE or ENDED it fails
with SessionNotActive, changes nothing and makes no LLM call — and on
success it makes exactly two further LLM calls (summary and structured
feedback, both over the full turn history), transitions the session to
ENDED, and builds the SessionRecord holding the summary text and the
feedback list. -/
theorem claim_C6_finalize_only_from_ending (sess : Session)
    (sr : Except Unit String) (ar : Except Unit (List Feedback))
    (summaryText : String) (feedbackList : List Feedback) :
    ((sess.state = SessionState.ACTIVE ∨ sess.state = SessionState.ENDED) →
      finalizeOp sess sr ar =
        (sess, Except.error EngineError.SessionNotActive, [])) ∧
    (sess.state = SessionState.ENDING →
      finalizeOp sess (Except.ok summaryText) (Except.ok feedbackList) =
        ({ sess with state := SessionState.ENDED },
          Except.ok
            ⟨sess.id, sess.settings, sess.created_at, sess.turns,
              summaryText, feedbackList⟩,
          [LLMCall.summarize sess.turns, LLMCall.analyze sess.turns])) := by
  constructor
  · intro hA
    rcases sess with ⟨id, settings, ca, la, state, turns, cnt⟩
    simp only at hA
    rcases hA with h | h <;> subst h <;> simp [finalizeOp]
  · intro hE
    rcases sess with ⟨id, settings, ca, la, state, turns, cnt⟩
    simp only at hE
    subst hE
    simp [finalizeOp]

/-- Witness for C6: finalize fails on an ACTIVE session and succeeds on an
ENDING session with exactly the two LLM calls. -/
theorem claim_C6_finalize_only_from_ending_witness :
    finalizeOp sampleStart (Except.ok ("sum")) (Except.ok []) =
      (sampleStart, Except.error EngineError.SessionNotActive, []) ∧
    finalizeOp sampleEnding (Except.ok ("sum")) (Except.ok []) =
      ({ sampleEnding with state := SessionState.ENDED },
        Except.ok
          ⟨sampleEnding.id, sampleEnding.settings, sampleEnding.created_at,
            sampleEnding.turns, ("sum"), []⟩,
        [LLMCall.summarize sampleEnding.turns,
          LLMCall.analyze sampleEnding.turns]) :=
  ⟨(claim_C6_finalize_only_from_ending sampleStart (Except.ok ("sum"))
      (Except.ok []) ("sum") []).1 (Or.inl rfl),
    (claim_C6_finalize_only_from_ending sampleEnding (Except.ok ("sum"))
      (Except.ok []) ("sum") []).2 rfl⟩

theorem keys_nodup_eq {β : Type} :
    ∀ (l : List (String × β)), (l.map Prod.fst).Nodup →
      ∀ p q : String × β, p ∈ l → q ∈ l → p.1 = q.1 → p = q := by
  intro l
  induction l with
  | nil => simp
  | cons x xs ih =>
    intro h p q hp hq hpq
    simp only [List.map_cons, List.nodup_cons] at h
    rcases List.mem_cons.mp hp with hp1 | hp1 <;>
      rcases List.mem_cons.mp hq with hq1 | hq1
    · rw [hp1, hq1]
    · subst hp1
      exact absurd (hpq ▸ List.mem_map_of_mem Prod.fst hq1) h.1
    · subst hq1
      exact absurd (hpq ▸ List.mem_map_of_mem Prod.fst hp1) h.1
    · exact ih h.2 p q hp1 hq1 hpq

theorem contains_eq_false_iff (l : List String) (a : String) :
    (l.contains a) = false ↔ a ∉ l := by
  simp

/-- C7: a cleanup sweep at instant `now` keeps exactly the store entries
whose idle duration (from last-activity) does not exceed the timeout,
deletes every audio artifact of a purged session, and never purges a
session mutated within the timeout window no matter how old it is. -/
theorem claim_C7_cleanup_sweep (now : Nat) (st : EngineState)
    (hkeys : (st.sessions.map Prod.fst).Nodup) :
    (∀ p, p ∈ st.sessions →
      (p ∈ (cleanupSweep now st).sessions ↔ isExpiredAt now p.2 = false)) ∧
    (∀ a, a ∈ st.artifacts → a.session_id ∈ expiredIds now st →
      a ∉ (cleanupSweep now st).artifacts) ∧
    (∀ p, p ∈ st.sessions → now - p.2.last_activity ≤ sessionTimeout →
      p ∈ (cleanupSweep now st).sessions) := by
  have hmem : ∀ p : String × Session, p ∈ st.sessions →
      (p.1 ∈ expiredIds now st ↔ isExpiredAt now p.2 = true) := by
    intro p hp
    constructor
    · intro hin
      obtain ⟨q, hq, hq1⟩ := List.mem_map.mp hin
      have hq2 := List.mem_filter.mp hq
      have : q = p := keys_nodup_eq st.sessions hkeys q p hq2.1 hp hq1
      rw [← this]
      exact hq2.2
    · intro hexp
      exact List.mem_map_of_mem Prod.fst (List.mem_filter.mpr ⟨hp, hexp⟩)
  have h1 : ∀ p, p ∈ st.sessions →
      (p ∈ (cleanupSweep now st).sessions ↔ isExpiredAt now p.2 = false) := by
    intro p hp
    simp only [cleanupSweep, List.mem_filter, Bool.not_eq_true',
      contains_eq_false_iff]
    constructor
    · intro h
      cases hex : isExpiredAt now p.2 with
      | false => rfl
      | true => exact absurd ((hmem p hp).mpr hex) h.2
    · intro hex
      exact ⟨hp, fun hin => by
        have hT := (hmem p hp).mp hin
        rw [hex] at hT
        exact Bool.false_ne_true hT⟩
  refine ⟨h1, ?_, ?_⟩
  · intro a ha hin
    simp only [cleanupSweep, List.mem_filter, Bool.not_eq_true',
      contains_eq_false_iff]
    intro h
    exact h.2 hin
  · intro p hp hfresh
    have hex : isExpiredAt now p.2 = false := by
      simp only [isExpiredAt, decide_eq_false_iff_not, Nat.not_lt]
      exact hfresh
    exact (h1 p hp).mpr hex

/-- Witness for C7 at a concrete engine state: the fresh session survives
the sweep, and the stale session's artifact is removed. -/
theorem claim_C7_cleanup_sweep_witness :
    ((("fresh"), freshSession) ∈ (cleanupSweep 5000 sampleEngineState).sessions) ∧
    ((⟨("old"), 1, 0⟩ : AudioArtifact) ∉
      (cleanupSweep 5000 sampleEngineState).artifacts) :=
  ⟨(claim_C7_cleanup_sweep 5000 sampleEngineState (by decide)).2.2
      (("fresh"), freshSession) (by decide) (by decide),
    (claim_C7_cleanup_sweep 5000 sampleEngineState (by decide)).2.1
      ⟨("old"), 1, 0⟩ (by decide) (by decide)⟩

theorem digitChar10_ne_underscore (d : Nat) : digitChar10 d ≠ '_' := by
  unfold digitChar10
  split_ifs <;> decide

theorem digitVal_digitChar10 (d : Nat) (h : d < 10) :
    digitVal (digitChar10 d) = d := by
  unfold digitChar10
  split_ifs with h0 h1 h2 h3 h4 h5 h6 h7 h8
  · subst h0; decide
  · subst h1; decide
  · subst h2; decide
  · subst h3; decide
  · subst h4; decide
  · subst h5; decide
  · subst h6; decide
  · subst h7; decide
  · subst h8; decide
  · have h9 : d = 9 := by omega
    subst h9; decide

theorem natCharsGo_append (fuel : Nat) :
    ∀ (n : Nat) (acc : List Char),
      natCharsGo fuel n acc = natCharsGo fuel n [] ++ acc := by
  induction fuel with
  | zero => intro n acc; simp [natCharsGo]
  | succ f ih =>
    intro n acc
    unfold natCharsGo
    by_cases h : n < 10
    · simp [h]
    · simp only [h, if_false]
      rw [ih (n / 10) (digitChar10 (n % 10) :: acc),
        ih (n / 10) [digitChar10 (n % 10)], List.append_assoc]
      rfl

theorem chVal_append_digit (l : List Char) (c : Char) :
    chVal (l ++ [c]) = chVal l * 10 + digitVal c := by
  induction l with
  | nil => simp [chVal]
  | cons a as ih =>
    show chVal (a :: (as ++ [c])) = chVal (a :: as) * 10 + digitVal c
    simp only [chVal, ih, List.length_append, List.length_singleton,
      List.length_cons, List.length_nil]
    ring

theorem chVal_natCharsGo (fuel : Nat) :
    ∀ n : Nat, n < 10 ^ fuel → chVal (natCharsGo fuel n []) = n := by
  induction fuel with
  | zero =>
    intro n h
    simp only [pow_zero, Nat.lt_one_iff] at h
    subst h
    simp [natCharsGo, chVal]
  | succ f ih =>
    intro n h
    unfold natCharsGo
    by_cases h10 : n < 10
    · simp [h10, chVal, digitVal_digitChar10 n h10]
    · simp only [h10, if_false]
      have hdiv : n / 10 < 10 ^ f := by
        rw [Nat.div_lt_iff_lt_mul (by norm_num : 0 < 10)]
        calc n < 10 ^ (f + 1) := h
        _ = 10 ^ f * 10 := by ring
      rw [natCharsGo_append, chVal_append_digit, ih (n / 10) hdiv,
        digitVal_digitChar10 (n % 10) (Nat.mod_lt n (by norm_num))]
      omega

theorem natChars_val (n : Nat) : chVal (natChars n) = n := by
  have hlt : n < 10 ^ (n + 1) :=
    lt_of_lt_of_le (Nat.lt_pow_self (by norm_num) n)
      (Nat.pow_le_pow_right (by norm_num) (Nat.le_succ n))
  exact chVal_natCharsGo (n + 1) n hlt

theorem natChars_inj (m n : Nat) (h : natChars m = natChars n) : m = n := by
  have hm := natChars_val m
  have hn := natChars_val n
  rw [h] at hm
  omega

theorem natCharsGo_no_underscore (fuel : Nat) :
    ∀ (n : Nat) (acc : List Char), '_' ∉ acc →
      '_' ∉ natCharsGo fuel n acc := by
  induction fuel with
  | zero => intro n acc h; simpa [natCharsGo] using h
  | succ f ih =>
    intro n acc h
    unfold natCharsGo
    by_cases h10 : n < 10
    · simp only [h10, if_true, List.mem_cons]
      rintro (hc | hc)
      · exact digitChar10_ne_underscore n hc.symm
      · exact h hc
    · simp only [h10, if_false]
      refine ih (n / 10) _ ?_
      simp only [List.mem_cons]
      rintro (hc | hc)
      · exact digitChar10_ne_underscore (n % 10) hc.symm
      · exact h hc

theorem natChars_no_underscore (n : Nat) : '_' ∉ natChars n :=
  natCharsGo_no_underscore (n + 1) n [] (by simp)

theorem append_underscore_inj :
    ∀ (a1 a2 b1 b2 : List Char), '_' ∉ b1 → '_' ∉ b2 →
      a1 ++ '_' :: b1 = a2 ++ '_' :: b2 → a1 = a2 ∧ b1 = b2 := by
  intro a1
  induction a1 with
  | nil =>
    intro a2 b1 b2 h1 h2 h
    cases a2 with
    | nil =>
      simp only [List.nil_append, List.cons.injEq] at h
      exact ⟨rfl, h.2⟩
    | cons c cs =>
      simp only [List.nil_append, List.cons_append, List.cons.injEq] at h
      exact absurd (h.2 ▸ List.mem_append_right cs (List.mem_cons_self '_' b2))
        h1
  | cons c cs ih =>
    intro a2 b1 b2 h1 h2 h
    cases a2 with
    | nil =>
      simp only [List.cons_append, List.nil_append, List.cons.injEq] at h
      exact absurd
        (h.2.symm ▸ List.mem_append_right cs (List.mem_cons_self '_' b1)) h2
    | cons d ds =>
      simp only [List.cons_append, List.cons.injEq] at h
      obtain ⟨hcs, hb⟩ := ih ds b1 b2 h1 h2 h.2
      exact ⟨by rw [h.1, hcs], hb⟩

theorem artifactName_inj (s1 : String) (i1 : Nat) (s2 : String) (i2 : Nat)
    (h : artifactName s1 i1 = artifactName s2 i2) : s1 = s2 ∧ i1 = i2 := by
  have hd : s1.data ++ '_' :: natChars i1 = s2.data ++ '_' :: natChars i2 := by
    have hdata := congrArg String.data h
    simpa [artifactName, String.data_append] using hdata
  obtain ⟨hs, hn⟩ := append_underscore_inj s1.data s2.data
    (natChars i1) (natChars i2) (natChars_no_underscore i1)
    (natChars_no_underscore i2) hd
  exact ⟨String.ext hs, natChars_inj i1 i2 hn⟩

/-- C8: the artifact store is deterministic on (session_id, turn_index) —
the returned reference is the session-id_turn-index name, equal pairs give
equal references independent of store contents and bytes, distinct pairs
give distinct references, and re-storing a key replaces the previous
artifact, leaving exactly one entry under that key which holds the new
bytes. -/
theorem claim_C8_artifact_naming (st1 st2 : ArtifactStore)
    (sid1 sid2 : String) (i1 i2 : Nat) (b1 b2 : List Nat) :
    ((storeArtifact st1 sid1 i1 b1).2 = artifactName sid1 i1) ∧
    (sid1 = sid2 → i1 = i2 →
      (storeArtifact st1 sid1 i1 b1).2 = (storeArtifact st2 sid2 i2 b2).2) ∧
    (¬(sid1 = sid2 ∧ i1 = i2) →
      (storeArtifact st1 sid1 i1 b1).2 ≠ (storeArtifact st2 sid2 i2 b2).2) ∧
    keyCount (storeArtifact st1 sid1 i1 b1).1 (artifactName sid1 i1) = 1 ∧
    keyLookup (storeArtifact st1 sid1 i1 b1).1 (artifactName sid1 i1) =
      some b1 := by
  refine ⟨rfl, ?_, ?_, ?_, ?_⟩
  · intro hs hi
    rw [hs, hi]
    rfl
  · intro hne heq
    exact hne (artifactName_inj sid1 i1 sid2 i2 heq)
  · simp only [storeArtifact, keyCount, List.filter_cons, decide_True,
      List.filter_filter]
    have hfix : ∀ p : String × List Nat,
        (decide (p.1 = artifactName sid1 i1) &&
          !decide (p.1 = artifactName sid1 i1)) = false := by
      intro p
      cases hd : decide (p.1 = artifactName sid1 i1) <;> simp [hd]
    simp [hfix]
  · simp [storeArtifact, keyLookup, List.find?]

/-- Witness for C8: distinct pairs yield distinct references. -/
theorem claim_C8_artifact_naming_witness :
    (storeArtifact ⟨[]⟩ ("a") 1 []).2 ≠ (storeArtifact ⟨[]⟩ ("b") 2 []).2 :=
  (claim_C8_artifact_naming ⟨[]⟩ ⟨[]⟩ ("a") ("b") 1 2 [] []).2.2.1
    (by simp)

/-- C9 counterexample: with a present-but-empty server response message
and a non-empty own message, the handler receives the own message, not the
response's message field — so the selection is not "the server response's
message field if present", and the literal priority choice would even be
the empty string. -/
theorem claim_C9_counterexample :
    (interceptorOnRejected true ⟨some "", some ("boom")⟩).1 = [("boom")] ∧
    claimedMessage ⟨some "", some ("boom")⟩ = "" ∧
    decide
      ((interceptorOnRejected true ⟨some "", some ("boom")⟩).1 =
        [claimedMessage ⟨some "", some ("boom")⟩]) = false := by
  refine ⟨by decide, by decide, by decide⟩

/-- C9 (amended): every failed request is rejected with the original
error; a registered handler is invoked exactly once with a non-empty
message chosen by JavaScript truthiness priority — the server response's
message field if present and non-empty, else the error's own message if
present and non-empty, else the constant fallback. -/
theorem claim_C9_interceptor (reg : Bool) (e : AxiosError) :
    ((interceptorOnRejected reg e).2 = e) ∧
    ((interceptorOnRejected reg e).1 =
      if reg then [interceptorMessage e] else []) ∧
    (interceptorMessage e ≠ "") ∧
    (∀ m, e.responseMessage = some m → m ≠ "" →
      interceptorMessage e = m) ∧
    (∀ m, (e.responseMessage = none ∨ e.responseMessage = some "") →
      e.errorMessage = some m → m ≠ "" → interceptorMessage e = m) ∧
    ((e.responseMessage = none ∨ e.responseMessage = some "") →
      (e.errorMessage = none ∨ e.errorMessage = some "") →
      interceptorMessage e = ("An unexpected error occurred")) := by
  rcases e with ⟨rm, em⟩
  refine ⟨rfl, rfl, ?_, ?_, ?_, ?_⟩
  · rcases rm with _ | r <;> rcases em with _ | m <;>
      simp only [interceptorMessage, jsOrStr] <;> (try split_ifs) <;>
      first | decide | assumption
  · intro m hm hne
    simp only at hm
    subst hm
    simp [interceptorMessage, jsOrStr, hne]
  · intro m hrm hm hne
    simp only at hm
    subst hm
    rcases hrm with h | h <;> simp only at h <;> subst h <;>
      simp [interceptorMessage, jsOrStr, hne]
  · intro hrm hem
    rcases hrm with h | h <;> simp only at h <;> subst h <;>
      rcases hem with h2 | h2 <;> simp only at h2 <;> subst h2 <;>
        simp [interceptorMessage, jsOrStr]

/-- Witness for C9 at concrete errors: truthiness fallback to the own
message, and the constant fallback. -/
theorem claim_C9_interceptor_witness :
    interceptorMessage ⟨some "", some ("net down")⟩ = ("net down") ∧
    interceptorMessage ⟨none, none⟩ = ("An unexpected error occurred") :=
  ⟨(claim_C9_interceptor true ⟨some "", some ("net down")⟩).2.2.2.2.1
      ("net down") (Or.inr rfl) rfl (by decide),
    (claim_C9_interceptor true ⟨none, none⟩).2.2.2.2.2 (Or.inl rfl)
      (Or.inl rfl)⟩

/-- C10: PracticeView's handleRecordingComplete appends exactly one
optimistic user turn to the displayed list before the request, and a failed
sendTurn restores the displayed list to exactly its pre-request value. -/
theorem claim_C10_optimistic_rollback (turns : List FTurn) :
    afterOptimistic turns = turns ++ [optimisticTurn] ∧
    (afterOptimistic turns).length = turns.length + 1 ∧
    (∀ e : Unit, afterTurnResponse turns (Except.error e) = turns) := by
  refine ⟨rfl, by simp [afterOptimistic], ?_⟩
  intro e
  simp [afterTurnResponse, afterOptimistic]

end SpeakingPractice
